import Mathlib

/-!
Shallow embedding of the chora-sync core (vector clocks, change journal,
bidirectional merger) translated from `src/chora_sync/clock.py`,
`src/chora_sync/changes.py` and `src/chora_sync/merge.py`, together with
proofs settling the specification claims about it.

Python dictionaries are modelled as association lists (`List (String × Nat)`)
read through first-match lookup; SQLite tables become in-memory lists in
insertion (rowid) order; `datetime` values are represented by their ISO-8601
string, the only form this repository ever reads or writes.
-/

namespace ChoraSync

/-- Result of `VectorClock.compare`: the Python code returns
-1 (Before), 1 (After), 0 (Equal) or None (Concurrent). -/
inductive ClockCmp where
  | Before
  | After
  | Equal
  | Concurrent
deriving DecidableEq, Repr

/-- `VectorClock` from clock.py: a mapping from site id to counter,
modelled as an association list (Python dict, insertion ordered). -/
structure VectorClock where
  counters : List (String × Nat)
deriving DecidableEq, Repr

namespace VectorClock

/-- `get`: `self.counters.get(site_id, 0)`. -/
def get (vc : VectorClock) (site : String) : Nat :=
  (vc.counters.lookup site).getD 0

/-- The keys of the counters dict. -/
def keys (vc : VectorClock) : List String :=
  vc.counters.map Prod.fst

/-- `set(self.counters.keys()) | set(other.counters.keys())` — the union of
both key sets, in one concrete enumeration order (Python set order is
unspecified; every property below is proved through `get`, so the order is
irrelevant). -/
def sitesUnion (a b : VectorClock) : List String :=
  (a.keys ++ b.keys).dedup

/-- `increment(site_id)`: copy the counters and bump the entry for `site`
(`new_counters[site_id] = new_counters.get(site_id, 0) + 1`). -/
def increment (a : VectorClock) (site : String) : VectorClock :=
  if a.counters.any (fun p => p.1 == site) then
    ⟨a.counters.map (fun p => if p.1 == site then (p.1, p.2 + 1) else p)⟩
  else
    ⟨a.counters ++ [(site, a.get site + 1)]⟩

/-- `merge(other)`: pointwise max over the union of the key sets. -/
def merge (a b : VectorClock) : VectorClock :=
  ⟨(sitesUnion a b).map (fun s => (s, max (a.get s) (b.get s)))⟩

/-- `compare(other)`: scan the union of the key sets maintaining
`less_or_equal` and `greater_or_equal` flags. -/
def compare (a b : VectorClock) : ClockCmp :=
  let sites := sitesUnion a b
  let le := sites.all (fun s => decide (a.get s ≤ b.get s))
  let ge := sites.all (fun s => decide (b.get s ≤ a.get s))
  if le && ge then .Equal
  else if le then .Before
  else if ge then .After
  else .Concurrent

/-- `__eq__`: two clocks are equal when `compare` returns 0 (Equal). -/
def eqv (a b : VectorClock) : Prop :=
  a.compare b = .Equal

instance (a b : VectorClock) : Decidable (eqv a b) :=
  inferInstanceAs (Decidable (a.compare b = .Equal))

/-- `to_dict` (a deepcopy of the counters dict). -/
def to_dict (vc : VectorClock) : List (String × Nat) :=
  vc.counters

/-- `from_dict` (a deepcopy of the given dict). -/
def from_dict (d : List (String × Nat)) : VectorClock :=
  ⟨d⟩

end VectorClock

/-- `ChangeType` from changes.py: enum with values "insert", "update", "delete". -/
inductive ChangeType where
  | insert
  | update
  | delete
deriving DecidableEq, Repr

/-- `ChangeType(...).value`: the lowercase tag string. -/
def ChangeType.value : ChangeType → String
  | .insert => "insert"
  | .update => "update"
  | .delete => "delete"

/-- The enum constructor `ChangeType(s)`: succeeds only on a known tag
(Python raises ValueError otherwise, modelled as `none`). -/
def ChangeType.ofString (s : String) : Option ChangeType :=
  if s = "insert" then some .insert
  else if s = "update" then some .update
  else if s = "delete" then some .delete
  else none

/-- Model of a Python `datetime`: the repository only ever produces one with
`utcnow()`/`fromisoformat` and only ever consumes one with `isoformat`, so a
datetime is represented by its ISO-8601 string. -/
structure Datetime where
  iso : String
deriving DecidableEq, Repr

/-- `datetime.isoformat()`. -/
def Datetime.isoformat (d : Datetime) : String := d.iso

/-- `datetime.fromisoformat(s)`. -/
def Datetime.fromisoformat (s : String) : Datetime := ⟨s⟩

/-- `Change` from changes.py. `db_version` is a Python int, so `Int` here. -/
structure Change where
  entity_id : String
  change_type : ChangeType
  table_name : String
  column_name : Option String
  value : Option String
  site_id : String
  db_version : Int
  clock : VectorClock
  timestamp : Datetime
deriving DecidableEq, Repr

/-- The dictionary produced by `Change.to_dict` (keys fixed by the code). -/
structure ChangeDict where
  entity_id : String
  change_type : String
  table_name : String
  column_name : Option String
  value : Option String
  site_id : String
  db_version : Int
  clock : List (String × Nat)
  timestamp : String
deriving DecidableEq, Repr

/-- `Change.to_dict`. -/
def Change.to_dict (c : Change) : ChangeDict :=
  { entity_id := c.entity_id
    change_type := c.change_type.value
    table_name := c.table_name
    column_name := c.column_name
    value := c.value
    site_id := c.site_id
    db_version := c.db_version
    clock := c.clock.to_dict
    timestamp := c.timestamp.isoformat }

/-- `Change.from_dict`; `ChangeType(d["change_type"])` can raise on an unknown
tag, hence the `Option`. -/
def Change.from_dict (d : ChangeDict) : Option Change :=
  (ChangeType.ofString d.change_type).map (fun ct =>
    { entity_id := d.entity_id
      change_type := ct
      table_name := d.table_name
      column_name := d.column_name
      value := d.value
      site_id := d.site_id
      db_version := d.db_version
      clock := VectorClock.from_dict d.clock
      timestamp := Datetime.fromisoformat d.timestamp })

/-- The identity triple `(site_id, db_version, entity_id)` of a change. -/
def Change.triple (c : Change) : String × Int × String :=
  (c.site_id, c.db_version, c.entity_id)

/-- The duplicate test of `apply_remote_change`: an existing row with the
same `(entity_id, site_id, db_version)`. -/
def Change.sameIdentity (r c : Change) : Bool :=
  r.entity_id == c.entity_id && r.site_id == c.site_id &&
    r.db_version == c.db_version

/-- `ChangeTracker` state: the `sync_changes` table in rowid (insertion)
order, the `sync_sites` table as a site → `last_seen_version` map (the
informational `last_sync` timestamp column is not modelled; nothing reads
it), and the current clock (`_current_clock`, kept in step with the
persisted `sync_clock` row). -/
structure Tracker where
  site_id : String
  rows : List Change
  sites : List (String × Int)
  clock : VectorClock
deriving Repr

/-- `SELECT COALESCE(MAX(db_version), 0) FROM sync_changes`. -/
def journalMaxVersion (rows : List Change) : Int :=
  rows.foldl (fun acc c => max acc c.db_version) 0

/-- Insert a change into a version-sorted list, before any row with an equal
or larger `db_version` (stability on ties in favour of the element being
inserted, which originally preceded the tail). -/
def insertByVersion (c : Change) : List Change → List Change
  | [] => [c]
  | d :: rest =>
    if d.db_version < c.db_version then d :: insertByVersion c rest
    else c :: d :: rest

/-- Stable ascending sort by `db_version`, modelling `ORDER BY db_version
ASC` over the rowid scan order. -/
def sortByVersion : List Change → List Change
  | [] => []
  | c :: rest => insertByVersion c (sortByVersion rest)

/-- Pointwise supremum of the clocks of a list of journal rows. -/
def rowsClockSup (rows : List Change) (s : String) : Nat :=
  rows.foldr (fun c acc => max (c.clock.get s) acc) 0

namespace Tracker

/-- `ChangeTracker.record_change` (the `utcnow()` timestamp is passed in).
Returns the updated tracker and the recorded change. -/
def record_change (t : Tracker) (entity_id : String) (ct : ChangeType)
    (table_name : String) (column_name : Option String) (value : Option String)
    (now : Datetime) : Tracker × Change :=
  let clock' := t.clock.increment t.site_id
  let db_version := journalMaxVersion t.rows + 1
  let change : Change :=
    { entity_id := entity_id
      change_type := ct
      table_name := table_name
      column_name := column_name
      value := value
      site_id := t.site_id
      db_version := db_version
      clock := clock'
      timestamp := now }
  ({ t with rows := t.rows ++ [change], clock := clock' }, change)

/-- `ChangeTracker.get_changes_since`: rows with `db_version > since`,
`ORDER BY db_version ASC` (stable in rowid order on ties, as SQLite scans). -/
def get_changes_since (t : Tracker) (since_version : Int) : List Change :=
  sortByVersion (t.rows.filter (fun c => since_version < c.db_version))

/-- `ChangeTracker.get_current_version`. -/
def get_current_version (t : Tracker) : Int :=
  journalMaxVersion t.rows

/-- `ChangeTracker.get_current_clock`. -/
def get_current_clock (t : Tracker) : VectorClock :=
  t.clock

/-- `ChangeTracker.apply_remote_change`: duplicate test on
`(entity_id, site_id, db_version)`, then merge clocks and append the row
verbatim. Returns the updated tracker and the Applied/Duplicate flag. -/
def apply_remote_change (t : Tracker) (change : Change) : Tracker × Bool :=
  if t.rows.any (fun r => r.sameIdentity change) then
    (t, false)
  else
    ({ t with
        rows := t.rows ++ [change]
        clock := t.clock.merge change.clock }, true)

/-- The `INSERT ... ON CONFLICT(site_id) DO UPDATE` upsert on `sync_sites`. -/
def upsertSite (l : List (String × Int)) (site : String) (version : Int) :
    List (String × Int) :=
  if l.any (fun p => p.1 == site) then
    l.map (fun p => if p.1 == site then (site, version) else p)
  else
    l ++ [(site, version)]

/-- `ChangeTracker.update_site_version` (the `utcnow()` `last_sync` value is
taken but not modelled, as nothing reads it back). -/
def update_site_version (t : Tracker) (site : String) (version : Int)
    (_now : Datetime) : Tracker :=
  { t with sites := upsertSite t.sites site version }

/-- `ChangeTracker.get_site_version`: the stored `last_seen_version`, or 0. -/
def get_site_version (t : Tracker) (site : String) : Int :=
  (t.sites.lookup site).getD 0

end Tracker

/-- `MergeResult` from merge.py. -/
structure MergeResult where
  changes_sent : Nat
  changes_received : Nat
  conflicts_resolved : Nat
  errors : List String
deriving DecidableEq, Repr

/-- `MergeResult.success`. -/
def MergeResult.success (r : MergeResult) : Prop :=
  r.errors = []

/-- `DatabaseMerger.get_changes_for_remote`. -/
def get_changes_for_remote (t : Tracker) (remote_site_id : String) :
    List Change × Int :=
  let last_remote_version := t.get_site_version remote_site_id
  let changes := t.get_changes_since last_remote_version
  let changes_to_send := changes.filter (fun c => c.site_id ≠ remote_site_id)
  (changes_to_send, t.get_current_version)

/-- The `for change in changes` loop of `apply_remote_changes`: apply each
change in order, counting the `Applied` ones. In this model
`apply_remote_change` never raises, so the `errors` list stays empty. -/
def applyLoop (t : Tracker) (changes : List Change) : Tracker × Nat :=
  match changes with
  | [] => (t, 0)
  | c :: rest =>
    let step := t.apply_remote_change c
    let restResult := applyLoop step.1 rest
    (restResult.1, (if step.2 then 1 else 0) + restResult.2)

/-- `DatabaseMerger.apply_remote_changes`: apply the batch, then
unconditionally `update_site_version(remote_site_id, remote_version)`. -/
def apply_remote_changes (t : Tracker) (changes : List Change)
    (remote_site_id : String) (remote_version : Int) (now : Datetime) :
    Tracker × MergeResult :=
  let looped := applyLoop t changes
  let t' := looped.1.update_site_version remote_site_id remote_version now
  (t', { changes_sent := 0
         changes_received := looped.2
         conflicts_resolved := 0
         errors := [] })

/-- Outcome of one `sync_with`: the two updated trackers and the report. -/
structure SyncOutcome where
  left : Tracker
  right : Tracker
  result : MergeResult

/-- `DatabaseMerger.sync_with`, line by line: compute the outbound delta,
pull the remote delta, apply it locally, apply the outbound delta remotely,
then update the remote watermark for the local site again. -/
def sync_with (l r : Tracker) (now : Datetime) : SyncOutcome :=
  let remote_site_id := r.site_id
  let local_site_id := l.site_id
  let outbound := get_changes_for_remote l remote_site_id
  let changes_to_send := outbound.1
  let local_version := outbound.2
  let last_remote_version := l.get_site_version remote_site_id
  let remote_changes := (r.get_changes_since last_remote_version).filter
    (fun c => c.site_id ≠ local_site_id)
  let remote_current_version := r.get_current_version
  let localApply := apply_remote_changes l remote_changes remote_site_id
    remote_current_version now
  let l' := localApply.1
  let local_result := localApply.2
  let remoteApply := apply_remote_changes r changes_to_send local_site_id
    local_version now
  let remote_result := remoteApply.2
  let r' := remoteApply.1.update_site_version local_site_id local_version now
  { left := l'
    right := r'
    result :=
      { changes_sent := changes_to_send.length
        changes_received := local_result.changes_received
        conflicts_resolved :=
          local_result.conflicts_resolved + remote_result.conflicts_resolved
        errors := local_result.errors ++
          (remote_result.errors.map (fun e => "Remote: " ++ e)) } }

section VectorClockLemmas

open VectorClock

theorem lookup_eq_none_of_not_mem_keys {l : List (String × Nat)} {s : String}
    (h : s ∉ l.map Prod.fst) : l.lookup s = none := by
  induction l with
  | nil => rfl
  | cons p t ih =>
    simp only [List.map_cons, List.mem_cons, not_or] at h
    have hb : (s == p.1) = false := beq_eq_false_iff_ne.mpr h.1
    simp [List.lookup, hb, ih h.2]

theorem get_eq_zero_of_not_mem {a : VectorClock} {s : String}
    (h : s ∉ a.keys) : a.get s = 0 := by
  unfold VectorClock.get
  rw [lookup_eq_none_of_not_mem_keys h]
  rfl

theorem mem_sitesUnion {a b : VectorClock} {s : String} :
    s ∈ sitesUnion a b ↔ s ∈ a.keys ∨ s ∈ b.keys := by
  unfold sitesUnion
  rw [List.mem_dedup, List.mem_append]

theorem get_eq_zero_of_not_mem_union {a b : VectorClock} {s : String}
    (h : s ∉ sitesUnion a b) : a.get s = 0 ∧ b.get s = 0 := by
  rw [mem_sitesUnion] at h
  push_neg at h
  exact ⟨get_eq_zero_of_not_mem h.1, get_eq_zero_of_not_mem h.2⟩

theorem lookup_map_self {l : List String} {s : String} (f : String → Nat) :
    (l.map (fun t => (t, f t))).lookup s =
      if s ∈ l then some (f s) else none := by
  induction l with
  | nil => simp
  | cons t ts ih =>
    by_cases h : s = t
    · subst h
      simp [List.lookup]
    · have hb : (s == t) = false := beq_eq_false_iff_ne.mpr h
      simp [List.lookup, hb, ih, h]

/-- Pointwise characterisation of `merge`. -/
theorem merge_get (a b : VectorClock) (s : String) :
    (a.merge b).get s = max (a.get s) (b.get s) := by
  unfold VectorClock.merge VectorClock.get
  simp only
  rw [lookup_map_self]
  by_cases h : s ∈ sitesUnion a b
  · rw [if_pos h]; rfl
  · rw [if_neg h]
    obtain ⟨h1, h2⟩ := get_eq_zero_of_not_mem_union h
    unfold VectorClock.get at h1 h2
    rw [h1, h2]
    rfl

theorem all_le_iff (a b : VectorClock) (l : List String)
    (hl : ∀ s : String, s ∉ l → a.get s = 0 ∧ b.get s = 0) :
    (l.all (fun s => decide (a.get s ≤ b.get s)) = true) ↔
      ∀ s : String, a.get s ≤ b.get s := by
  rw [List.all_eq_true]
  constructor
  · intro h s
    by_cases hs : s ∈ l
    · simpa using h s hs
    · obtain ⟨h1, h2⟩ := hl s hs
      rw [h1, h2]
  · intro h s _
    simpa using h s

theorem cmp_ite_spec (le ge : Bool) (P Q : Prop)
    (hle : le = true ↔ P) (hge : ge = true ↔ Q) :
    (((if le && ge then ClockCmp.Equal
        else if le then ClockCmp.Before
        else if ge then ClockCmp.After
        else ClockCmp.Concurrent) = ClockCmp.Equal) ↔ (P ∧ Q)) ∧
    (((if le && ge then ClockCmp.Equal
        else if le then ClockCmp.Before
        else if ge then ClockCmp.After
        else ClockCmp.Concurrent) = ClockCmp.Before) ↔ (P ∧ ¬ Q)) := by
  cases le <;> cases ge <;> simp_all

/-- `compare` returns `Equal` exactly when the counters agree pointwise
(missing keys read as 0). -/
theorem compare_eq_Equal_iff (a b : VectorClock) :
    a.compare b = .Equal ↔ ∀ s : String, a.get s = b.get s := by
  have hout : ∀ s : String, s ∉ sitesUnion a b → a.get s = 0 ∧ b.get s = 0 :=
    fun s hs => get_eq_zero_of_not_mem_union hs
  have hle := all_le_iff a b (sitesUnion a b) hout
  have hge := all_le_iff b a (sitesUnion a b)
    (fun s hs => ⟨(hout s hs).2, (hout s hs).1⟩)
  have h := (cmp_ite_spec _ _ _ _ hle hge).1
  unfold VectorClock.compare
  simp only
  rw [h]
  constructor
  · intro hpq s
    exact le_antisymm (hpq.1 s) (hpq.2 s)
  · intro heq
    exact ⟨fun s => (heq s).le, fun s => (heq s).ge⟩

/-- `compare` returns `Before` exactly when `a ≤ b` pointwise but not equal. -/
theorem compare_eq_Before_iff (a b : VectorClock) :
    a.compare b = .Before ↔
      (∀ s : String, a.get s ≤ b.get s) ∧ ¬ (∀ s : String, a.get s = b.get s) := by
  have hout : ∀ s : String, s ∉ sitesUnion a b → a.get s = 0 ∧ b.get s = 0 :=
    fun s hs => get_eq_zero_of_not_mem_union hs
  have hle := all_le_iff a b (sitesUnion a b) hout
  have hge := all_le_iff b a (sitesUnion a b)
    (fun s hs => ⟨(hout s hs).2, (hout s hs).1⟩)
  have h := (cmp_ite_spec _ _ _ _ hle hge).2
  unfold VectorClock.compare
  simp only
  rw [h]
  constructor
  · rintro ⟨hp, hq⟩
    exact ⟨hp, fun heq => hq (fun s => (heq s).ge)⟩
  · rintro ⟨hp, hne⟩
    exact ⟨hp, fun hq => hne (fun s => le_antisymm (hp s) (hq s))⟩

theorem eqv_iff_get (a b : VectorClock) :
    a.eqv b ↔ ∀ s : String, a.get s = b.get s :=
  compare_eq_Equal_iff a b

end VectorClockLemmas

section JournalLemmas

theorem mem_insertByVersion {x c : Change} {l : List Change} :
    x ∈ insertByVersion c l ↔ x = c ∨ x ∈ l := by
  induction l with
  | nil => simp [insertByVersion]
  | cons d rest ih =>
    unfold insertByVersion
    by_cases h : d.db_version < c.db_version
    · rw [if_pos h]
      simp only [List.mem_cons, ih]
      tauto
    · rw [if_neg h]
      simp only [List.mem_cons]

theorem mem_sortByVersion {x : Change} {l : List Change} :
    x ∈ sortByVersion l ↔ x ∈ l := by
  induction l with
  | nil => simp [sortByVersion]
  | cons c rest ih =>
    unfold sortByVersion
    rw [mem_insertByVersion, ih, List.mem_cons]

theorem mem_get_changes_since {t : Tracker} {v : Int} {r : Change} :
    r ∈ t.get_changes_since v ↔ r ∈ t.rows ∧ v < r.db_version := by
  unfold Tracker.get_changes_since
  rw [mem_sortByVersion, List.mem_filter]
  simp

theorem sameIdentity_iff {r c : Change} :
    r.sameIdentity c = true ↔ r.triple = c.triple := by
  unfold Change.sameIdentity Change.triple
  simp only [Bool.and_eq_true, beq_iff_eq, Prod.mk.injEq]
  tauto

/-- `applyLoop` never touches the sites table or the site id. -/
theorem applyLoop_sites (t : Tracker) (cs : List Change) :
    (applyLoop t cs).1.sites = t.sites ∧
      (applyLoop t cs).1.site_id = t.site_id := by
  induction cs generalizing t with
  | nil => exact ⟨rfl, rfl⟩
  | cons c rest ih =>
    unfold applyLoop Tracker.apply_remote_change
    by_cases h : t.rows.any (fun r => r.sameIdentity c) = true
    · simp only [h, if_pos]
      exact ih t
    · rw [Bool.not_eq_true] at h
      simp only [h, Bool.false_eq_true, if_neg, not_false_iff]
      exact ih _

/-- Every row after `applyLoop` was either already present or came from the
batch. -/
theorem applyLoop_rows_subset (t : Tracker) (cs : List Change) :
    ∀ r ∈ (applyLoop t cs).1.rows, r ∈ t.rows ∨ r ∈ cs := by
  induction cs generalizing t with
  | nil =>
    intro r hr
    exact Or.inl hr
  | cons c rest ih =>
    intro r hr
    unfold applyLoop Tracker.apply_remote_change at hr
    by_cases h : t.rows.any (fun x => x.sameIdentity c) = true
    · simp only [h, if_pos] at hr
      rcases ih t r hr with h1 | h1
      · exact Or.inl h1
      · exact Or.inr (List.mem_cons_of_mem _ h1)
    · rw [Bool.not_eq_true] at h
      simp only [h, Bool.false_eq_true, if_neg, not_false_iff] at hr
      rcases ih _ r hr with h1 | h1
      · rcases List.mem_append.mp h1 with h2 | h2
        · exact Or.inl h2
        · rw [List.mem_singleton] at h2
          exact Or.inr (h2 ▸ List.mem_cons_self _ _)
      · exact Or.inr (List.mem_cons_of_mem _ h1)

/-- The identity triples present after `applyLoop` are exactly those already
present plus those of the batch. -/
theorem applyLoop_triples (t : Tracker) (cs : List Change)
    (tr : String × Int × String) :
    (∃ r ∈ (applyLoop t cs).1.rows, r.triple = tr) ↔
      (∃ r ∈ t.rows, r.triple = tr) ∨ (∃ c ∈ cs, c.triple = tr) := by
  induction cs generalizing t with
  | nil =>
    simp [applyLoop]
  | cons c rest ih =>
    unfold applyLoop Tracker.apply_remote_change
    by_cases h : t.rows.any (fun x => x.sameIdentity c) = true
    · simp only [h, if_pos]
      rw [ih t]
      obtain ⟨r0, hr0, hs0⟩ := List.any_eq_true.mp h
      have htrip : r0.triple = c.triple := sameIdentity_iff.mp hs0
      constructor
      · rintro (h1 | h1)
        · exact Or.inl h1
        · exact Or.inr (by obtain ⟨x, hx, he⟩ := h1; exact ⟨x, List.mem_cons_of_mem _ hx, he⟩)
      · rintro (h1 | ⟨x, hx, he⟩)
        · exact Or.inl h1
        · rcases List.mem_cons.mp hx with h2 | h2
          · exact Or.inl ⟨r0, hr0, by rw [htrip, ← h2, he]⟩
          · exact Or.inr ⟨x, h2, he⟩
    · rw [Bool.not_eq_true] at h
      simp only [h, Bool.false_eq_true, if_neg, not_false_iff]
      rw [ih]
      simp only [List.mem_append, List.mem_singleton, List.mem_cons,
        List.not_mem_nil, or_false]
      constructor
      · rintro (⟨x, hx | rfl, he⟩ | ⟨x, hx, he⟩)
        · exact Or.inl ⟨x, hx, he⟩
        · exact Or.inr ⟨x, Or.inl rfl, he⟩
        · exact Or.inr ⟨x, Or.inr hx, he⟩
      · rintro (⟨x, hx, he⟩ | ⟨x, rfl | hx, he⟩)
        · exact Or.inl ⟨x, Or.inl hx, he⟩
        · exact Or.inl ⟨x, Or.inr rfl, he⟩
        · exact Or.inr ⟨x, hx, he⟩

/-- Every element bound for the pointwise clock supremum. -/
theorem le_rowsClockSup {rows : List Change} {r : Change} (hr : r ∈ rows)
    (s : String) : r.clock.get s ≤ rowsClockSup rows s := by
  induction rows with
  | nil => cases hr
  | cons c rest ih =>
    unfold rowsClockSup
    rcases List.mem_cons.mp hr with h | h
    · subst h
      exact le_max_left _ _
    · exact le_trans (ih h) (le_max_right _ _)

theorem rowsClockSup_cons (c : Change) (rows : List Change) (s : String) :
    rowsClockSup (c :: rows) s = max (c.clock.get s) (rowsClockSup rows s) :=
  rfl

theorem rowsClockSup_le {rows : List Change} {b : Nat} {s : String}
    (h : ∀ r ∈ rows, r.clock.get s ≤ b) : rowsClockSup rows s ≤ b := by
  induction rows with
  | nil => exact Nat.zero_le b
  | cons c rest ih =>
    rw [rowsClockSup_cons]
    exact max_le (h c (List.mem_cons_self _ _))
      (ih (fun r hr => h r (List.mem_cons_of_mem _ hr)))

/-- Pointwise value of the clock after a batch apply: the old clock joined
with the clocks of the batch, provided the state's clock already dominates
its own rows, duplicates in the batch carry clocks already dominated, and
equal triples in the batch carry equal clocks. -/
theorem applyLoop_clock_get (s : String) (cs : List Change) (t : Tracker)
    (H1 : ∀ r ∈ t.rows, r.clock.get s ≤ t.clock.get s)
    (H2 : ∀ c ∈ cs, (∃ r ∈ t.rows, r.triple = c.triple) →
      c.clock.get s ≤ t.clock.get s)
    (H3 : ∀ c ∈ cs, ∀ c' ∈ cs, c.triple = c'.triple →
      c.clock.get s = c'.clock.get s) :
    (applyLoop t cs).1.clock.get s =
      max (t.clock.get s) (rowsClockSup cs s) := by
  induction cs generalizing t with
  | nil =>
    simp [applyLoop, rowsClockSup]
  | cons c rest ih =>
    unfold applyLoop Tracker.apply_remote_change
    by_cases h : t.rows.any (fun x => x.sameIdentity c) = true
    · simp only [h, if_pos]
      obtain ⟨r0, hr0, hs0⟩ := List.any_eq_true.mp h
      have hcle : c.clock.get s ≤ t.clock.get s :=
        H2 c (List.mem_cons_self _ _) ⟨r0, hr0, sameIdentity_iff.mp hs0⟩
      rw [ih t H1
        (fun x hx => H2 x (List.mem_cons_of_mem _ hx))
        (fun x hx y hy => H3 x (List.mem_cons_of_mem _ hx) y
          (List.mem_cons_of_mem _ hy))]
      rw [rowsClockSup_cons]
      omega
    · rw [Bool.not_eq_true] at h
      simp only [h, Bool.false_eq_true, if_neg, not_false_iff]
      have hmerge : (t.clock.merge c.clock).get s =
          max (t.clock.get s) (c.clock.get s) := merge_get _ _ _
      rw [ih]
      · rw [hmerge, rowsClockSup_cons]
        omega
      · intro r hr
        rcases List.mem_append.mp hr with h1 | h1
        · exact le_trans (H1 r h1) (by rw [hmerge]; exact le_max_left _ _)
        · rw [List.mem_singleton] at h1
          subst h1
          rw [hmerge]
          exact le_max_right _ _
      · intro x hx hex
        obtain ⟨r, hr, he⟩ := hex
        rcases List.mem_append.mp hr with h1 | h1
        · exact le_trans (H2 x (List.mem_cons_of_mem _ hx) ⟨r, h1, he⟩)
            (by rw [hmerge]; exact le_max_left _ _)
        · rw [List.mem_singleton] at h1
          rw [h1] at he
          have := H3 x (List.mem_cons_of_mem _ hx) c (List.mem_cons_self _ _)
            he.symm
          rw [this, hmerge]
          exact le_max_right _ _
      · intro x hx y hy he
        exact H3 x (List.mem_cons_of_mem _ hx) y (List.mem_cons_of_mem _ hy) he

theorem lookup_upsertSite_mapped {l : List (String × Int)} {site : String}
    (v : Int) (h : l.any (fun p => p.1 == site) = true) :
    (l.map (fun p => if p.1 == site then (site, v) else p)).lookup site =
      some v := by
  induction l with
  | nil => cases h
  | cons p rest ih =>
    simp only [List.map_cons]
    by_cases hp : p.1 = site
    · rw [if_pos (show (p.1 == site) = true from beq_iff_eq.mpr hp)]
      simp [List.lookup]
    · have hb : (p.1 == site) = false := beq_eq_false_iff_ne.mpr hp
      have hb' : (site == p.1) = false :=
        beq_eq_false_iff_ne.mpr (fun e => hp e.symm)
      rw [if_neg (show ¬ (p.1 == site) = true from by simp [hb])]
      simp only [List.any_cons, hb, Bool.false_or] at h
      rw [List.lookup_cons, hb']
      exact ih h

theorem lookup_append_new {l : List (String × Int)} {site : String} (v : Int)
    (h : l.any (fun p => p.1 == site) = false) :
    (l ++ [(site, v)]).lookup site = some v := by
  induction l with
  | nil =>
    simp [List.lookup]
  | cons p rest ih =>
    simp only [List.any_cons, Bool.or_eq_false_iff] at h
    have hp : p.1 ≠ site := by
      intro e
      have := h.1
      rw [e] at this
      simp at this
    have hb' : (site == p.1) = false :=
      beq_eq_false_iff_ne.mpr (fun e => hp e.symm)
    simp [List.lookup, hb', ih h.2]

/-- Reading back a watermark right after an upsert yields the written value. -/
theorem get_site_version_update (t : Tracker) (site : String) (v : Int)
    (now : Datetime) :
    (t.update_site_version site v now).get_site_version site = v := by
  unfold Tracker.update_site_version Tracker.get_site_version Tracker.upsertSite
  by_cases h : t.sites.any (fun p => p.1 == site) = true
  · simp only [h, if_pos, lookup_upsertSite_mapped v h, Option.getD_some]
  · rw [Bool.not_eq_true] at h
    simp only [h, Bool.false_eq_true, if_neg, not_false_iff,
      lookup_append_new v h, Option.getD_some]

end JournalLemmas

/-- C6: `VectorClock.merge` is commutative, associative and idempotent,
clock equality being the code's `__eq__`, i.e. `compare` returning Equal. -/
theorem merge_comm_assoc_idem (a b c : VectorClock) :
    (a.merge b).eqv (b.merge a) ∧
      ((a.merge b).merge c).eqv (a.merge (b.merge c)) ∧
      (a.merge a).eqv a := by
  refine ⟨?_, ?_, ?_⟩ <;> rw [eqv_iff_get] <;> intro s <;>
    simp only [merge_get] <;> omega

/-- C7: `compare` is consistent with `merge`: it returns Before exactly when
merging with the other clock gives back the other clock and the two clocks
are not equal (equality being the code's semantic `__eq__`). -/
theorem compare_before_iff_merge_absorbed (a b : VectorClock) :
    a.compare b = .Before ↔ ((a.merge b).eqv b ∧ ¬ a.eqv b) := by
  rw [compare_eq_Before_iff, eqv_iff_get, eqv_iff_get]
  constructor
  · rintro ⟨hle, hne⟩
    refine ⟨fun s => ?_, hne⟩
    rw [merge_get]
    exact max_eq_right (hle s)
  · rintro ⟨hm, hne⟩
    refine ⟨fun s => ?_, hne⟩
    have h := hm s
    rw [merge_get] at h
    omega

/-- C10: VectorClock equality is semantic, not structural: clocks are equal
(compare returns Equal) exactly when their counters agree pointwise with
missing keys read as 0; in particular a clock carrying an explicit zero
entry equals the clock without it although their underlying dicts differ. -/
theorem vectorClock_equality_semantic :
    (∀ a b : VectorClock, (a.eqv b ↔ ∀ s : String, a.get s = b.get s)) ∧
      (VectorClock.mk [("a", 0)]).eqv (VectorClock.mk []) ∧
      (VectorClock.mk [("a", 0)]).counters ≠ (VectorClock.mk []).counters :=
  ⟨eqv_iff_get, by decide, by decide⟩

/-- C8: the Change codec round-trips: `from_dict (to_dict c)` succeeds and
returns a change identical to `c`, including the change_type tag, the
nullable column_name and value, the nested clock mapping and the
timestamp. -/
theorem change_codec_round_trip (c : Change) :
    Change.from_dict (Change.to_dict c) = some c := by
  cases c with
  | mk eid ct tn cn v sid dbv ck ts =>
    cases ck
    cases ts
    cases ct <;> rfl

/-- C2: `record_change` computes the next db_version as 1 plus the maximum
over ALL journal rows, applied-remote ones included (changes.py line 177):
a journal of site "a" holding only a remote row of site "b" with
db_version 5 mints 6 for its next local change, while the per-own-site rule
of the claim yields 1. -/
theorem record_change_uses_global_max :
    ((Tracker.record_change
        ⟨"a",
          [⟨"x", .insert, "entities", none, none, "b", 5, ⟨[("b", 5)]⟩,
            ⟨"2026-01-01T00:00:00"⟩⟩],
          [("b", 5)], ⟨[("b", 5)]⟩⟩
        "e" .insert "entities" none none ⟨"2026-01-02T00:00:00"⟩).2.db_version
      = 6) ∧
      journalMaxVersion
        ((⟨"a",
          [⟨"x", .insert, "entities", none, none, "b", 5, ⟨[("b", 5)]⟩,
            ⟨"2026-01-01T00:00:00"⟩⟩],
          [("b", 5)], ⟨[("b", 5)]⟩⟩ : Tracker).rows.filter
          (fun r => r.site_id == "a")) + 1 = 1 := by
  decide

/-- C4 counterexample: `update_site_version` has no monotonicity guard;
writing 5 then 3 for the same peer leaves the stored watermark at 3 < 5,
refuting that peer watermarks never decrease. -/
theorem update_site_version_can_decrease :
    ((Tracker.update_site_version
        (Tracker.update_site_version ⟨"a", [], [], ⟨[]⟩⟩ "p" 5
          ⟨"2026-01-01T00:00:00"⟩)
        "p" 3 ⟨"2026-01-01T00:00:01"⟩).get_site_version "p" = 3) ∧
      ((Tracker.update_site_version ⟨"a", [], [], ⟨[]⟩⟩ "p" 5
        ⟨"2026-01-01T00:00:00"⟩).get_site_version "p" = 5) ∧
      (3 : Int) < 5 := by
  decide

/-- C4 amended: `update_site_version` unconditionally upserts, so the stored
watermark for a site is always exactly the last version written, whether or
not that is lower than the previous value. -/
theorem update_site_version_last_write_wins (t : Tracker) (site : String)
    (v : Int) (now : Datetime) :
    (t.update_site_version site v now).get_site_version site = v :=
  get_site_version_update t site v now

/-- C3 counterexample: `apply_remote_changes` updates the peer watermark
unconditionally; with an existing watermark of 5 and a successfully applied
batch carrying peer_version 3, the claim requires the watermark to stay at 5
(since 3 < 5), but the code stores 3. -/
theorem apply_remote_changes_watermark_unconditional :
    ((apply_remote_changes ⟨"a", [], [("p", 5)], ⟨[]⟩⟩
        [⟨"e", .insert, "entities", none, none, "p", 6, ⟨[("p", 6)]⟩,
          ⟨"2026-01-01T00:00:00"⟩⟩]
        "p" 3 ⟨"2026-01-01T00:00:01"⟩).2.changes_received = 1) ∧
      ((apply_remote_changes ⟨"a", [], [("p", 5)], ⟨[]⟩⟩
        [⟨"e", .insert, "entities", none, none, "p", 6, ⟨[("p", 6)]⟩,
          ⟨"2026-01-01T00:00:00"⟩⟩]
        "p" 3 ⟨"2026-01-01T00:00:01"⟩).1.get_site_version "p" = 3) ∧
      ¬ (3 : Int) ≥ 5 := by
  decide

/-- C3 amended: after `apply_remote_changes` the peer watermark equals the
passed peer_version in every case — batch empty or not, changes applied or
not, larger or smaller than the existing watermark. -/
theorem apply_remote_changes_sets_watermark (t : Tracker) (cs : List Change)
    (peer : String) (v : Int) (now : Datetime) :
    (apply_remote_changes t cs peer v now).1.get_site_version peer = v :=
  get_site_version_update (applyLoop t cs).1 peer v now

/-- C9 counterexample: `apply_remote_change` performs no validation — a
change with empty entity_id, empty site_id and negative db_version is
reported Applied and appended to the journal, where the claim requires
rejection with the journal unchanged. -/
theorem apply_remote_change_accepts_invalid :
    ((Tracker.apply_remote_change ⟨"a", [], [], ⟨[]⟩⟩
        ⟨"", .insert, "entities", none, none, "", -1, ⟨[]⟩, ⟨""⟩⟩).2 = true) ∧
      ((Tracker.apply_remote_change ⟨"a", [], [], ⟨[]⟩⟩
        ⟨"", .insert, "entities", none, none, "", -1, ⟨[]⟩, ⟨""⟩⟩).1.rows =
        [⟨"", .insert, "entities", none, none, "", -1, ⟨[]⟩, ⟨""⟩⟩]) := by
  decide

/-- C9 amended: `apply_remote_change` validates nothing: any change whose
identity triple is not already present — including one with empty
entity_id, empty site_id or negative db_version — is applied like any
other, appended to the journal with the clock merged. -/
theorem apply_remote_change_no_validation (t : Tracker) (c : Change)
    (_hbad : c.entity_id = "" ∨ c.site_id = "" ∨ c.db_version < 0)
    (hfresh : t.rows.any (fun r => r.sameIdentity c) = false) :
    (t.apply_remote_change c).2 = true ∧
      (t.apply_remote_change c).1.rows = t.rows ++ [c] ∧
      (t.apply_remote_change c).1.clock = t.clock.merge c.clock := by
  unfold Tracker.apply_remote_change
  simp [hfresh]

/-- Witness for the amended C9 at a concrete invalid change. -/
theorem apply_remote_change_no_validation_witness :
    (Tracker.apply_remote_change ⟨"a", [], [], ⟨[]⟩⟩
        ⟨"", .insert, "entities", none, none, "", -1, ⟨[]⟩, ⟨""⟩⟩).2 = true ∧
      (Tracker.apply_remote_change ⟨"a", [], [], ⟨[]⟩⟩
        ⟨"", .insert, "entities", none, none, "", -1, ⟨[]⟩, ⟨""⟩⟩).1.rows =
        [] ++ [⟨"", .insert, "entities", none, none, "", -1, ⟨[]⟩, ⟨""⟩⟩] ∧
      (Tracker.apply_remote_change ⟨"a", [], [], ⟨[]⟩⟩
        ⟨"", .insert, "entities", none, none, "", -1, ⟨[]⟩, ⟨""⟩⟩).1.clock =
        VectorClock.merge ⟨[]⟩ ⟨[]⟩ :=
  apply_remote_change_no_validation ⟨"a", [], [], ⟨[]⟩⟩
    ⟨"", .insert, "entities", none, none, "", -1, ⟨[]⟩, ⟨""⟩⟩
    (Or.inl rfl) (by decide)

/-- C5: `apply_remote_change` is idempotent: a change whose identity triple
is not yet in the journal is Applied; every repeated apply of the same
change returns Duplicate with no side effects, and the tracker after one
apply equals the tracker after any number of further applies. -/
theorem apply_remote_change_idempotent (t : Tracker) (c : Change)
    (hfresh : t.rows.any (fun r => r.sameIdentity c) = false) :
    (t.apply_remote_change c).2 = true ∧
      ((t.apply_remote_change c).1.apply_remote_change c).2 = false ∧
      ((t.apply_remote_change c).1.apply_remote_change c).1 =
        (t.apply_remote_change c).1 ∧
      ∀ n : Nat,
        (fun s => (s.apply_remote_change c).1)^[n] (t.apply_remote_change c).1
          = (t.apply_remote_change c).1 := by
  have hself : c.sameIdentity c = true := by
    simp [Change.sameIdentity]
  have happ : t.apply_remote_change c =
      ({ t with rows := t.rows ++ [c], clock := t.clock.merge c.clock }, true) := by
    unfold Tracker.apply_remote_change
    simp [hfresh]
  have hdup : ((t.apply_remote_change c).1.rows.any
      (fun r => r.sameIdentity c)) = true := by
    rw [happ]
    simp [hself]
  have hdupApply : ∀ u : Tracker,
      (u.rows.any (fun r => r.sameIdentity c)) = true →
        u.apply_remote_change c = (u, false) := by
    intro u hu
    unfold Tracker.apply_remote_change
    rw [hu]
    simp
  have hsecond : (t.apply_remote_change c).1.apply_remote_change c =
      ((t.apply_remote_change c).1, false) := hdupApply _ hdup
  refine ⟨by rw [happ], by rw [hsecond], by rw [hsecond], ?_⟩
  intro n
  induction n with
  | zero => rfl
  | succ k ih =>
    rw [Function.iterate_succ_apply', ih, hsecond]

/-- Witness for C5 at a concrete fresh change and empty journal. -/
theorem apply_remote_change_idempotent_witness :
    (Tracker.apply_remote_change ⟨"a", [], [], ⟨[]⟩⟩
        ⟨"e", .insert, "entities", none, none, "b", 1, ⟨[("b", 1)]⟩, ⟨""⟩⟩).2
        = true ∧
      ((Tracker.apply_remote_change ⟨"a", [], [], ⟨[]⟩⟩
        ⟨"e", .insert, "entities", none, none, "b", 1, ⟨[("b", 1)]⟩,
          ⟨""⟩⟩).1.apply_remote_change
        ⟨"e", .insert, "entities", none, none, "b", 1, ⟨[("b", 1)]⟩, ⟨""⟩⟩).2
        = false ∧
      ((Tracker.apply_remote_change ⟨"a", [], [], ⟨[]⟩⟩
        ⟨"e", .insert, "entities", none, none, "b", 1, ⟨[("b", 1)]⟩,
          ⟨""⟩⟩).1.apply_remote_change
        ⟨"e", .insert, "entities", none, none, "b", 1, ⟨[("b", 1)]⟩, ⟨""⟩⟩).1
        = (Tracker.apply_remote_change ⟨"a", [], [], ⟨[]⟩⟩
        ⟨"e", .insert, "entities", none, none, "b", 1, ⟨[("b", 1)]⟩, ⟨""⟩⟩).1 ∧
      ∀ n : Nat,
        (fun s => (Tracker.apply_remote_change s
          ⟨"e", .insert, "entities", none, none, "b", 1, ⟨[("b", 1)]⟩,
            ⟨""⟩⟩).1)^[n]
          (Tracker.apply_remote_change ⟨"a", [], [], ⟨[]⟩⟩
            ⟨"e", .insert, "entities", none, none, "b", 1, ⟨[("b", 1)]⟩,
              ⟨""⟩⟩).1
          = (Tracker.apply_remote_change ⟨"a", [], [], ⟨[]⟩⟩
            ⟨"e", .insert, "entities", none, none, "b", 1, ⟨[("b", 1)]⟩,
              ⟨""⟩⟩).1 :=
  apply_remote_change_idempotent ⟨"a", [], [], ⟨[]⟩⟩
    ⟨"e", .insert, "entities", none, none, "b", 1, ⟨[("b", 1)]⟩, ⟨""⟩⟩
    (by decide)

/-- Journal state reachable by the public API: site "b" has recorded one
local change "eb". -/
def traceB0 : Tracker :=
  (Tracker.record_change ⟨"b", [], [], ⟨[]⟩⟩ "eb" .insert "entities" none none
    ⟨"2026-01-01T00:00:00"⟩).1

/-- First exchange: a fresh site "a" syncs with `traceB0`. -/
def traceSync1 : SyncOutcome :=
  sync_with ⟨"a", [], [], ⟨[]⟩⟩ traceB0 ⟨"2026-01-01T00:00:01"⟩

/-- A third site "c" records one local change "ex". -/
def traceC0 : Tracker :=
  (Tracker.record_change ⟨"c", [], [], ⟨[]⟩⟩ "ex" .insert "entities" none none
    ⟨"2026-01-01T00:00:02"⟩).1

/-- Second exchange: site "b" (fresh from syncing with "a") syncs with "c",
picking up `("c", 1, "ex")`. -/
def traceSync2 : SyncOutcome :=
  sync_with traceSync1.right traceC0 ⟨"2026-01-01T00:00:03"⟩

/-- Third exchange: "a" syncs with "b" again. "a" already holds watermark 1
for "b", so `("c", 1, "ex")` — whose db_version 1 is at or below that
cursor — is never pulled. -/
def traceSync3 : SyncOutcome :=
  sync_with traceSync1.left traceSync2.left ⟨"2026-01-01T00:00:04"⟩

/-- C1 counterexample: a completed `sync_with` between journals "a" and "b"
(every state reached only through `record_change` and `sync_with`) reports
no errors, yet afterwards the two journals do not contain the same set of
changes by identity triple — `("c", 1, "ex")` is only on "b"'s side — and
the two current clocks differ. -/
theorem sync_with_does_not_converge :
    traceSync3.result.errors = [] ∧
      ((traceSync3.left.get_changes_since 0).map Change.triple
        = [("b", 1, "eb")]) ∧
      ((traceSync3.right.get_changes_since 0).map Change.triple
        = [("b", 1, "eb"), ("c", 1, "ex")]) ∧
      ¬ (∃ r ∈ traceSync3.left.get_changes_since 0,
          r.triple = ("c", 1, "ex")) ∧
      (∃ r ∈ traceSync3.right.get_changes_since 0,
          r.triple = ("c", 1, "ex")) ∧
      ¬ traceSync3.left.clock.eqv traceSync3.right.clock := by
  decide

/-- C1 amended: one completed `sync_with` (which in this model never reports
errors) makes the two journals agree on the set of identity triples and on
the current clock, provided the local watermark for the peer is 0, all rows
carry positive db_versions, each journal already holds the rows of the
other that originated at its own site, rows with equal identity triple
carry equal clocks, and each current clock is the pointwise supremum of its
journal's row clocks. The counterexample shows the unconditional claim
fails once a prior sync has advanced the watermark past a third site's
rows. -/
theorem sync_with_converges (L R : Tracker) (now : Datetime)
    (hw : L.get_site_version R.site_id = 0)
    (hvL : ∀ r ∈ L.rows, 0 < r.db_version)
    (hvR : ∀ r ∈ R.rows, 0 < r.db_version)
    (hLR : ∀ r ∈ L.rows, r.site_id = R.site_id → r ∈ R.rows)
    (hRL : ∀ r ∈ R.rows, r.site_id = L.site_id → r ∈ L.rows)
    (hinj : ∀ r ∈ L.rows ++ R.rows, ∀ r' ∈ L.rows ++ R.rows,
      r.triple = r'.triple → r.clock = r'.clock)
    (hcL : ∀ s : String, L.clock.get s = rowsClockSup L.rows s)
    (hcR : ∀ s : String, R.clock.get s = rowsClockSup R.rows s) :
    (sync_with L R now).result.errors = [] ∧
      (∀ tr : String × Int × String,
        (∃ r ∈ (sync_with L R now).left.get_changes_since 0, r.triple = tr) ↔
          (∃ r ∈ (sync_with L R now).right.get_changes_since 0,
            r.triple = tr)) ∧
      (sync_with L R now).left.clock.eqv (sync_with L R now).right.clock := by
  have hmem_inc : ∀ c : Change,
      c ∈ (R.get_changes_since (L.get_site_version R.site_id)).filter
        (fun c => c.site_id ≠ L.site_id) ↔
      (c ∈ R.rows ∧ c.site_id ≠ L.site_id) := by
    intro c
    rw [List.mem_filter, mem_get_changes_since, hw]
    constructor
    · rintro ⟨⟨hc, _⟩, hne⟩
      exact ⟨hc, by simpa using hne⟩
    · rintro ⟨hc, hne⟩
      exact ⟨⟨hc, hvR c hc⟩, by simpa using hne⟩
  have hmem_send : ∀ c : Change,
      c ∈ (L.get_changes_since (L.get_site_version R.site_id)).filter
        (fun c => c.site_id ≠ R.site_id) ↔
      (c ∈ L.rows ∧ c.site_id ≠ R.site_id) := by
    intro c
    rw [List.mem_filter, mem_get_changes_since, hw]
    constructor
    · rintro ⟨⟨hc, _⟩, hne⟩
      exact ⟨hc, by simpa using hne⟩
    · rintro ⟨hc, hne⟩
      exact ⟨⟨hc, hvL c hc⟩, by simpa using hne⟩
  have hleft_rows : (sync_with L R now).left.rows =
      (applyLoop L ((R.get_changes_since (L.get_site_version R.site_id)).filter
        (fun c => c.site_id ≠ L.site_id))).1.rows := rfl
  have hright_rows : (sync_with L R now).right.rows =
      (applyLoop R ((L.get_changes_since (L.get_site_version R.site_id)).filter
        (fun c => c.site_id ≠ R.site_id))).1.rows := rfl
  have hleft_clock : (sync_with L R now).left.clock =
      (applyLoop L ((R.get_changes_since (L.get_site_version R.site_id)).filter
        (fun c => c.site_id ≠ L.site_id))).1.clock := rfl
  have hright_clock : (sync_with L R now).right.clock =
      (applyLoop R ((L.get_changes_since (L.get_site_version R.site_id)).filter
        (fun c => c.site_id ≠ R.site_id))).1.clock := rfl
  refine ⟨rfl, ?_, ?_⟩
  · intro tr
    have hposL : ∀ r ∈ (sync_with L R now).left.rows, 0 < r.db_version := by
      rw [hleft_rows]
      intro r hr
      rcases applyLoop_rows_subset _ _ r hr with h | h
      · exact hvL r h
      · exact hvR r ((hmem_inc r).mp h).1
    have hposR : ∀ r ∈ (sync_with L R now).right.rows, 0 < r.db_version := by
      rw [hright_rows]
      intro r hr
      rcases applyLoop_rows_subset _ _ r hr with h | h
      · exact hvR r h
      · exact hvL r ((hmem_send r).mp h).1
    have hsinceL : ∀ x : Tracker, (∀ r ∈ x.rows, 0 < r.db_version) →
        ((∃ r ∈ x.get_changes_since 0, r.triple = tr) ↔
          (∃ r ∈ x.rows, r.triple = tr)) := by
      intro x hx
      constructor
      · rintro ⟨r, hr, he⟩
        rw [mem_get_changes_since] at hr
        exact ⟨r, hr.1, he⟩
      · rintro ⟨r, hr, he⟩
        exact ⟨r, mem_get_changes_since.mpr ⟨hr, hx r hr⟩, he⟩
    rw [hsinceL _ hposL, hsinceL _ hposR, hleft_rows, hright_rows,
      applyLoop_triples, applyLoop_triples]
    constructor
    · rintro (⟨r, hr, he⟩ | ⟨c, hc, he⟩)
      · by_cases hsite : r.site_id = R.site_id
        · exact Or.inl ⟨r, hLR r hr hsite, he⟩
        · exact Or.inr ⟨r, (hmem_send r).mpr ⟨hr, hsite⟩, he⟩
      · exact Or.inl ⟨c, ((hmem_inc c).mp hc).1, he⟩
    · rintro (⟨r, hr, he⟩ | ⟨c, hc, he⟩)
      · by_cases hsite : r.site_id = L.site_id
        · exact Or.inl ⟨r, hRL r hr hsite, he⟩
        · exact Or.inr ⟨r, (hmem_inc r).mpr ⟨hr, hsite⟩, he⟩
      · exact Or.inl ⟨c, ((hmem_send c).mp hc).1, he⟩
  · rw [eqv_iff_get]
    intro s
    have H1L : ∀ r ∈ L.rows, r.clock.get s ≤ L.clock.get s := by
      intro r hr
      rw [hcL]
      exact le_rowsClockSup hr s
    have H1R : ∀ r ∈ R.rows, r.clock.get s ≤ R.clock.get s := by
      intro r hr
      rw [hcR]
      exact le_rowsClockSup hr s
    have hclkL := applyLoop_clock_get s
      ((R.get_changes_since (L.get_site_version R.site_id)).filter
        (fun c => c.site_id ≠ L.site_id)) L H1L
      (by
        intro c hc hex
        obtain ⟨r, hr, he⟩ := hex
        have hceq := hinj r (List.mem_append_left _ hr) c
          (List.mem_append_right _ ((hmem_inc c).mp hc).1) he
        rw [← hceq]
        exact H1L r hr)
      (by
        intro c hc c' hc' he
        have := hinj c (List.mem_append_right _ ((hmem_inc c).mp hc).1) c'
          (List.mem_append_right _ ((hmem_inc c').mp hc').1) he
        rw [this])
    have hclkR := applyLoop_clock_get s
      ((L.get_changes_since (L.get_site_version R.site_id)).filter
        (fun c => c.site_id ≠ R.site_id)) R H1R
      (by
        intro c hc hex
        obtain ⟨r, hr, he⟩ := hex
        have hceq := hinj r (List.mem_append_right _ hr) c
          (List.mem_append_left _ ((hmem_send c).mp hc).1) he
        rw [← hceq]
        exact H1R r hr)
      (by
        intro c hc c' hc' he
        have := hinj c (List.mem_append_left _ ((hmem_send c).mp hc).1) c'
          (List.mem_append_left _ ((hmem_send c').mp hc').1) he
        rw [this])
    rw [hleft_clock, hright_clock, hclkL, hclkR, hcL, hcR]
    have hIncLe : rowsClockSup
        ((R.get_changes_since (L.get_site_version R.site_id)).filter
          (fun c => c.site_id ≠ L.site_id)) s ≤ rowsClockSup R.rows s :=
      rowsClockSup_le (fun r hr =>
        le_rowsClockSup ((hmem_inc r).mp hr).1 s)
    have hSendLe : rowsClockSup
        ((L.get_changes_since (L.get_site_version R.site_id)).filter
          (fun c => c.site_id ≠ R.site_id)) s ≤ rowsClockSup L.rows s :=
      rowsClockSup_le (fun r hr =>
        le_rowsClockSup ((hmem_send r).mp hr).1 s)
    have hRle : rowsClockSup R.rows s ≤
        max (rowsClockSup L.rows s)
          (rowsClockSup
            ((R.get_changes_since (L.get_site_version R.site_id)).filter
              (fun c => c.site_id ≠ L.site_id)) s) := by
      apply rowsClockSup_le
      intro r hr
      by_cases hsite : r.site_id = L.site_id
      · exact le_trans (le_rowsClockSup (hRL r hr hsite) s) (le_max_left _ _)
      · exact le_trans (le_rowsClockSup ((hmem_inc r).mpr ⟨hr, hsite⟩) s)
          (le_max_right _ _)
    have hLle : rowsClockSup L.rows s ≤
        max (rowsClockSup R.rows s)
          (rowsClockSup
            ((L.get_changes_since (L.get_site_version R.site_id)).filter
              (fun c => c.site_id ≠ R.site_id)) s) := by
      apply rowsClockSup_le
      intro r hr
      by_cases hsite : r.site_id = R.site_id
      · exact le_trans (le_rowsClockSup (hLR r hr hsite) s) (le_max_left _ _)
      · exact le_trans (le_rowsClockSup ((hmem_send r).mpr ⟨hr, hsite⟩) s)
          (le_max_right _ _)
    omega

/-- Witness for the amended C1: two single-row journals, "a" holding its own
record and "b" holding its own record, satisfy every hypothesis, and
`sync_with` makes them agree. -/
theorem sync_with_converges_witness :
    (sync_with
        ⟨"a", [⟨"ea", .insert, "entities", none, none, "a", 1, ⟨[("a", 1)]⟩,
          ⟨"2026-01-01T00:00:00"⟩⟩], [], ⟨[("a", 1)]⟩⟩
        ⟨"b", [⟨"eb", .insert, "entities", none, none, "b", 1, ⟨[("b", 1)]⟩,
          ⟨"2026-01-01T00:00:01"⟩⟩], [], ⟨[("b", 1)]⟩⟩
        ⟨"2026-01-01T00:00:02"⟩).result.errors = [] ∧
      (∀ tr : String × Int × String,
        (∃ r ∈ (sync_with
          ⟨"a", [⟨"ea", .insert, "entities", none, none, "a", 1, ⟨[("a", 1)]⟩,
            ⟨"2026-01-01T00:00:00"⟩⟩], [], ⟨[("a", 1)]⟩⟩
          ⟨"b", [⟨"eb", .insert, "entities", none, none, "b", 1, ⟨[("b", 1)]⟩,
            ⟨"2026-01-01T00:00:01"⟩⟩], [], ⟨[("b", 1)]⟩⟩
          ⟨"2026-01-01T00:00:02"⟩).left.get_changes_since 0,
          r.triple = tr) ↔
        (∃ r ∈ (sync_with
          ⟨"a", [⟨"ea", .insert, "entities", none, none, "a", 1, ⟨[("a", 1)]⟩,
            ⟨"2026-01-01T00:00:00"⟩⟩], [], ⟨[("a", 1)]⟩⟩
          ⟨"b", [⟨"eb", .insert, "entities", none, none, "b", 1, ⟨[("b", 1)]⟩,
            ⟨"2026-01-01T00:00:01"⟩⟩], [], ⟨[("b", 1)]⟩⟩
          ⟨"2026-01-01T00:00:02"⟩).right.get_changes_since 0,
          r.triple = tr)) ∧
      (sync_with
        ⟨"a", [⟨"ea", .insert, "entities", none, none, "a", 1, ⟨[("a", 1)]⟩,
          ⟨"2026-01-01T00:00:00"⟩⟩], [], ⟨[("a", 1)]⟩⟩
        ⟨"b", [⟨"eb", .insert, "entities", none, none, "b", 1, ⟨[("b", 1)]⟩,
          ⟨"2026-01-01T00:00:01"⟩⟩], [], ⟨[("b", 1)]⟩⟩
        ⟨"2026-01-01T00:00:02"⟩).left.clock.eqv
        (sync_with
        ⟨"a", [⟨"ea", .insert, "entities", none, none, "a", 1, ⟨[("a", 1)]⟩,
          ⟨"2026-01-01T00:00:00"⟩⟩], [], ⟨[("a", 1)]⟩⟩
        ⟨"b", [⟨"eb", .insert, "entities", none, none, "b", 1, ⟨[("b", 1)]⟩,
          ⟨"2026-01-01T00:00:01"⟩⟩], [], ⟨[("b", 1)]⟩⟩
        ⟨"2026-01-01T00:00:02"⟩).right.clock :=
  sync_with_converges
    ⟨"a", [⟨"ea", .insert, "entities", none, none, "a", 1, ⟨[("a", 1)]⟩,
      ⟨"2026-01-01T00:00:00"⟩⟩], [], ⟨[("a", 1)]⟩⟩
    ⟨"b", [⟨"eb", .insert, "entities", none, none, "b", 1, ⟨[("b", 1)]⟩,
      ⟨"2026-01-01T00:00:01"⟩⟩], [], ⟨[("b", 1)]⟩⟩
    ⟨"2026-01-01T00:00:02"⟩
    (by decide) (by decide) (by decide) (by decide) (by decide) (by decide)
    (fun s => (Nat.max_zero _).symm) (fun s => (Nat.max_zero _).symm)

end ChoraSync
